import Mathlib

/-!
Verification development for the toy-shell repository ("smash").

The Rust sources are shallowly embedded: pure data types are translated
structure-for-structure, OS-dependent effects (fork, pipes, the file system,
the history file) are abstracted into explicit parameters or bookkeeping
state, and fallible or process-terminating code paths return `Except` values.
-/

namespace ToyShell

/-- Helper for `strSplit`: walk the characters, cutting at every separator;
`acc` holds the current piece reversed. -/
def splitCharsAux (p : Char → Bool) : List Char → List Char → List (List Char)
  | [], acc => [acc.reverse]
  | c :: cs, acc =>
    if p c then acc.reverse :: splitCharsAux p cs [] else splitCharsAux p cs (c :: acc)

/-- Rust's `str::split` with a character predicate: every separator cuts, so
adjacent separators and separators at the ends yield empty pieces, and the
empty string yields `[""]`. -/
def strSplit (s : String) (p : Char → Bool) : List String :=
  (splitCharsAux p s.data []).map (fun l => ⟨l⟩)

/-- Rust's `str::contains(char)`. -/
def strContainsChar (s : String) (c : Char) : Bool := s.data.contains c

/-- Rust's `str::starts_with`. -/
def strStartsWith (s pre : String) : Bool := pre.data.isPrefixOf s.data

/-- `ExitStatus` (src/process.rs): the exit status or reason why a command
exited.  Pids are modelled as integers. -/
inductive ExitStatus where
  | ExitedWith (code : Int)
  | Running (pid : Int)
  | Break
  | Continue
  | Return
  | NoExec
deriving Repr, DecidableEq

/-- `RunIf` (src/parser.rs): the connector leading into a pipeline.
The source documents `Success` as "run the command if the previous command
returned 0" and `Failure` as "run the command if the previous command
returned non-zero value". -/
inductive RunIf where
  | Always
  | Success
  | Failure
deriving Repr, DecidableEq

/-- Outcome of the guard at the head of the pipeline loop in `run_terms`. -/
inductive GateAction where
  | run
  | skip
  | earlyReturn (e : ExitStatus)
deriving Repr, DecidableEq

/-- The `match (last_status, &pipeline.run_if)` guard of `run_terms`
(src/eval.rs:35-43), arm for arm in source order; the first matching arm
wins, exactly as in Rust. -/
def pipelineGate (last : ExitStatus) (run_if : RunIf) : GateAction :=
  match last, run_if with
  | .ExitedWith 0, .Success => .run
  | .ExitedWith _, .Failure => .run
  | .Break, _ => .earlyReturn .Break
  | .Continue, _ => .earlyReturn .Continue
  | .Return, _ => .earlyReturn .Return
  | _, .Always => .run
  | _, _ => .skip

/-- A pipeline as `run_terms` (src/eval.rs) observes it: its connector plus
the `ExitStatus` that `run_pipeline` yields when the pipeline is executed
(the OS-level behaviour of its commands is abstracted into that result). -/
structure PipelineR where
  run_if : RunIf
  result : ExitStatus
deriving Repr, DecidableEq

/-- The inner pipeline loop of `run_terms` (src/eval.rs:33-54): returns the
per-pipeline execution trace (`true` = `run_pipeline` was invoked), the final
`last_status`, and `some e` when one of the `Break`/`Continue`/`Return` guard
arms returned `e` early out of `run_terms`. -/
def runPipelines (last : ExitStatus) : List PipelineR → (List Bool × ExitStatus × Option ExitStatus)
  | [] => ([], last, none)
  | p :: ps =>
    match pipelineGate last p.run_if with
    | .run =>
      let r := runPipelines p.result ps
      (true :: r.1, r.2.1, r.2.2)
    | .skip =>
      let r := runPipelines last ps
      (false :: r.1, r.2.1, r.2.2)
    | .earlyReturn e => ([false], last, some e)

/-- The term loop of `run_terms` (src/eval.rs:24-58).  A term is reduced to
its list of pipelines (`Term::pipelines`); `code` and `background` play no
role in the run/skip decision. -/
def runTermsGo (last : ExitStatus) : List (List PipelineR) → (List Bool × ExitStatus)
  | [] => ([], last)
  | t :: ts =>
    let r := runPipelines last t
    match r.2.2 with
    | some e => (r.1, e)
    | none =>
      let rest := runTermsGo r.2.1 ts
      (r.1 ++ rest.1, rest.2)

/-- `run_terms` (src/eval.rs:24-58): `last_status` starts at
`ExitedWith(0)`; the first component records, pipeline by pipeline in
traversal order, whether the pipeline was executed. -/
def run_terms (terms : List (List PipelineR)) : List Bool × ExitStatus :=
  runTermsGo (.ExitedWith 0) terms

/-- `ExpansionOp`.  Modelled from the spec: the parser that defines the
expansion-operator type is missing from this tree (src/parser.rs in this
snapshot produces no parameter spans, yet src/expand.rs imports
`parser::ExpansionOp`); per the spec the minimum core "accepts and ignores
`op`", so two representative operators suffice. -/
inductive ExpansionOp where
  | GetOrEmpty
  | Length
deriving Repr, DecidableEq

/-- `LiteralChar` (src/parser.rs): a literal character with its escape flag. -/
inductive LiteralChar where
  | Normal (c : Char)
  | Escaped (c : Char)
deriving Repr, DecidableEq

/-- Word spans as the expander (src/expand.rs:32-47) consumes them: literal
text, the parser-internal `LiteralChars`, and `$NAME`-style parameter
spans with their `op` and `quoted` flag. -/
inductive Span where
  | Literal (s : String)
  | LiteralChars (cs : List LiteralChar)
  | Parameter (name : String) (op : ExpansionOp) (quoted : Bool)
deriving Repr, DecidableEq

/-- `Word` (src/parser.rs): an ordered sequence of spans. -/
def Word := List Span
deriving Repr, DecidableEq

/-- `Expr` (src/parser.rs:50-74); the `BinaryExpr` boxes of the source are
flattened into two constructor arguments. -/
inductive Expr where
  | Add (lhs rhs : Expr)
  | Sub (lhs rhs : Expr)
  | Mul (lhs rhs : Expr)
  | Div (lhs rhs : Expr)
  | Assign (name : String) (rhs : Expr)
  | Literal (i : Int)
  | Parameter (name : String)
  | Eq (lhs rhs : Expr)
  | Ne (lhs rhs : Expr)
  | Lt (lhs rhs : Expr)
  | Le (lhs rhs : Expr)
  | Gt (lhs rhs : Expr)
  | Ge (lhs rhs : Expr)
  | Inc (name : String)
  | Dec (name : String)
  | Expr (e : Expr)
deriving Repr, DecidableEq

/-- `Initializer` (src/parser.rs:76-80). -/
inductive Initializer where
  | Array (words : List Word)
  | String (word : Word)
deriving Repr, DecidableEq

/-- `Assignment` (src/parser.rs:36-41). -/
structure Assignment where
  name : String
  initializer : Initializer
  index : Option Expr
deriving Repr, DecidableEq

/-- `RedirectionDirection` (src/parser.rs:110-115). -/
inductive RedirectionDirection where
  | Input
  | Output
  | Append
deriving Repr, DecidableEq

/-- `Redirection` (src/parser.rs:103-108); `RedirectionType` has the single
variant `File(Word)`, so the target is a `Word` directly. -/
structure Redirection where
  fd : Nat
  direction : RedirectionDirection
  target : Word
deriving Repr, DecidableEq

/-- `Command` (src/parser.rs:82-95). -/
inductive Command where
  | SimpleCommand (argv : List Word) (redirects : List Redirection)
      (assignments : List Assignment)
  | Assignment (assignments : List ToyShell.Assignment)
deriving Repr, DecidableEq

/-- `Pipeline` (src/parser.rs:131-135): commands separated by the pipe
symbol, with the connector leading into the pipeline. -/
structure Pipeline where
  run_if : RunIf
  commands : List Command
deriving Repr, DecidableEq

/-- `Term` (src/parser.rs:15-19). -/
structure Term where
  code : String
  pipelines : List Pipeline
deriving Repr, DecidableEq

/-- `Ast` (src/parser.rs:10-13). -/
structure Ast where
  terms : List Term
deriving Repr, DecidableEq

/-- `Value` (src/variable.rs:6-11). -/
inductive Value where
  | String (s : String)
  | Array (elems : List String)
  | Function (cmd : Command)
deriving Repr, DecidableEq

/-- `Variable` (src/variable.rs:14-18): `none` represents *null*. -/
structure Variable where
  value : Option Value
deriving Repr, DecidableEq

/-- `Variable::as_str` (src/variable.rs:30-41). -/
def Variable.as_str (v : Variable) : String :=
  match v.value with
  | some (.String value) => value
  | some (.Function _) => "(function)"
  | some (.Array elems) =>
    match elems.get? 0 with
    | some elem => elem
    | none => ""
  | none => ""

/-- `Frame` (src/variable.rs:44-47): a name-to-variable map, modelled as a
function. -/
def Frame := String → Option Variable

/-- `Frame::get` (src/variable.rs:56-58). -/
def Frame.get (f : Frame) (key : String) : Option Variable := f key

/-- `Frame::set` (src/variable.rs:64-67): inserts a non-null variable. -/
def Frame.set (f : Frame) (key : String) (value : Value) : Frame :=
  fun k => if k = key then some ⟨some value⟩ else f k

/-- Abstract directory listing standing for `std::fs::read_dir`:
`fs d = some entries` when directory `d` is readable and holds exactly the
entries with those basenames, `none` when reading the directory fails. -/
def DirFs := String → Option (List String)

/-- `DirEntry::path()` for an entry of `dir`: the directory path joined with
the entry's basename. -/
def joinPath (dir name : String) : String := dir ++ "/" ++ name

/-- `PathTable` (src/path.rs:4-9): the `$PATH` string and the
basename-to-absolute-path table, the latter modelled as a function. -/
structure PathTable where
  path : String
  table : String → Option String

/-- The inner `for entry in files` loop of `PathTable::rehash`
(src/path.rs:32-37): insert `basename → absolute_path` for every entry,
later inserts overwriting earlier ones. -/
def insertEntries (dir : String) (table : String → Option String) :
    List String → (String → Option String)
  | [] => table
  | e :: es =>
    insertEntries dir (fun k => if k = e then some (joinPath dir e) else table k) es

/-- The body of the `for bin_dir` loop of `PathTable::rehash`
(src/path.rs:31-38): `if let Ok(files) = read_dir(bin_dir)` insert all
entries, else leave the table alone (unreadable directories are skipped). -/
def processDir (fs : DirFs) (d : String) (table : String → Option String) :
    String → Option String :=
  match fs d with
  | some files => insertEntries d table files
  | none => table

/-- The outer `for bin_dir in self.path.split(':').rev()` loop of
`PathTable::rehash` (src/path.rs:30-39). -/
def scanDirs (fs : DirFs) (table : String → Option String) :
    List String → (String → Option String)
  | [] => table
  | d :: ds => scanDirs fs (processDir fs d table) ds

/-- `PathTable::rehash` (src/path.rs:28-40): clear the table, then scan the
directories of `self.path.split(':')` in reverse. -/
def PathTable.rehash (fs : DirFs) (pt : PathTable) : PathTable :=
  { pt with table := scanDirs fs (fun _ => none) (strSplit pt.path (fun c => c == ':')).reverse }

/-- `PathTable::scan` (src/path.rs:19-22). -/
def PathTable.scan (fs : DirFs) (pt : PathTable) (path : String) : PathTable :=
  PathTable.rehash fs { pt with path := path }

/-- `PathTable::lookup` (src/path.rs:42-44). -/
def PathTable.lookup (pt : PathTable) (cmd : String) : Option String := pt.table cmd

/-- The `Shell` state container (src/shell.rs:20-43), restricted to the
fields the verified operations touch. -/
structure Shell where
  last_status : Int
  frames : List Frame
  global : Frame
  path_table : PathTable
  cd_stack : List String

/-- `Shell::current_frame` (src/shell.rs:209-211): top of the frame stack,
falling back to the global frame. -/
def Shell.current_frame (sh : Shell) : Frame :=
  sh.frames.getLast?.getD sh.global

/-- `Shell::get` (src/shell.rs:200-206): look up in the current frame, then
fall through to the global frame. -/
def Shell.get (sh : Shell) (key : String) : Option Variable :=
  match sh.current_frame.get key with
  | some var => some var
  | none => sh.global.get key

/-- `Shell::set` (src/shell.rs:134-148): write the variable into the chosen
frame; a non-local assignment of a string value to `PATH` additionally
rescans the path table. -/
def Shell.set (fs : DirFs) (sh : Shell) (key : String) (value : Value)
    (is_local : Bool) : Shell :=
  let sh :=
    if is_local then
      match sh.frames.getLast? with
      | some top => { sh with frames := sh.frames.dropLast ++ [Frame.set top key value] }
      | none => { sh with global := Frame.set sh.global key value }
    else { sh with global := Frame.set sh.global key value }
  if !is_local && key = "PATH" then
    match value with
    | .String path => { sh with path_table := PathTable.scan fs sh.path_table path }
    | _ => sh
  else sh

/-- A shell with no variables, an empty path table and an empty directory
stack. -/
def emptyShell : Shell :=
  { last_status := 0
    frames := []
    global := fun _ => none
    path_table := { path := "", table := fun _ => none }
    cd_stack := [] }

/-- How an expansion can abort: `shellExit c` models `std::process::exit(c)`
terminating the whole shell process, `panicked` models `unreachable!()`. -/
inductive ExpandError where
  | shellExit (code : Int)
  | panicked
deriving Repr, DecidableEq

/-- `expand_param` (src/expand.rs:82-189).  `$?` expands to the last status;
any other name is looked up in the frame stack and, if defined, yields its
`as_str()` whatever `op` is (the live arm of the source's match is the
catch-all `(_, _)`).  An undefined name reaches
`smash_err!("undefined variable ...")` followed by `std::process::exit(1)`:
the whole shell process terminates with status 1. -/
def expand_param (sh : Shell) (name : String) (op : ExpansionOp) :
    Except ExpandError (List (Option String)) :=
  if name = "?" then .ok [some (toString sh.last_status)]
  else
    match sh.get name with
    | some var => .ok [some var.as_str]
    | none => .error (.shellExit 1)

/-- The per-span step of `expand_word_into_vec` (src/expand.rs:33-47):
produce the fragments and the should-split flag.  `LiteralChars` hits
`unreachable!()` in the source. -/
def expandSpanFrags (sh : Shell) : Span → Except ExpandError (List String × Bool)
  | .LiteralChars _ => .error .panicked
  | .Literal s => .ok ([s], false)
  | .Parameter name op quoted =>
    match expand_param sh name op with
    | .error e => .error e
    | .ok values => .ok (values.map (fun v => v.getD ""), !quoted)

/-- The `for frag in frags` loop of `expand_word_into_vec`
(src/expand.rs:49-68) over the state `(words, current_word)`.  A splitting
fragment first flushes a non-empty `current_word`, then pushes every
IFS-delimited piece as its own word (leaving `current_word` empty, as in the
source, where only a non-empty buffer is flushed and reset); a non-splitting
fragment is buffered.  When the span produced more than one fragment, the
buffer is flushed after each fragment. -/
def pushFrags (expand : Bool) (frags_len : Nat) (ifs : String) :
    List String → List String × List String → List String × List String
  | [], st => st
  | frag :: rest, (words, current_word) =>
    let st :=
      if expand then
        let words :=
          if current_word.isEmpty then words
          else words ++ [String.join current_word]
        (words ++ strSplit frag (fun c => strContainsChar ifs c), ([] : List String))
      else (words, current_word ++ [frag])
    let st :=
      if frags_len > 1 && !st.2.isEmpty then (st.1 ++ [String.join st.2], []) else st
    pushFrags expand frags_len ifs rest st

/-- The `for span in word.spans()` loop of `expand_word_into_vec`
(src/expand.rs:32-69). -/
def expandSpansLoop (sh : Shell) (ifs : String) :
    List Span → List String × List String →
    Except ExpandError (List String × List String)
  | [], st => .ok st
  | span :: rest, st =>
    match expandSpanFrags sh span with
    | .error e => .error e
    | .ok (frags, expand) =>
      expandSpansLoop sh ifs rest (pushFrags expand frags.length ifs frags st)

/-- `expand_word_into_vec` (src/expand.rs:25-80): run the span loop, flush
the residual `current_word`, and turn an empty result into `[""]`. -/
def expand_word_into_vec (sh : Shell) (word : Word) (ifs : String) :
    Except ExpandError (List String) :=
  match expandSpansLoop sh ifs word ([], []) with
  | .error e => .error e
  | .ok (words, current_word) =>
    let words :=
      if current_word.isEmpty then words else words ++ [String.join current_word]
    if words.isEmpty then .ok [""] else .ok words

/-- The `History` store (src/history.rs:8-13), with the backing file
modelled as its list of lines plus a flag telling whether opening it for
append succeeds (appends are best-effort). -/
structure History where
  history : List String
  file : List String
  file_openable : Bool
  path2cwd : String → Option String

/-- One `unix_time\tcwd\tcmd` line of the history file, as written by
`History::append` (src/history.rs:75). -/
def history_line (time : Nat) (cwd cmd : String) : String :=
  toString time ++ "\t" ++ cwd ++ "\t" ++ cmd ++ "\n"

/-- `History::append` (src/history.rs:56-81): returns unchanged on an empty
command or on a duplicate of the last in-memory entry; otherwise writes one
line to the file (when it opens) and pushes onto the in-memory list and the
`cmd → cwd` map.  `time` and `cwd` stand for the wall clock and
`current_dir()`. -/
def History.append (h : History) (cmd : String) (time : Nat) (cwd : String) : History :=
  if cmd = "" then h
  else if h.history.getLast? = some cmd then h
  else
    { h with
      file := if h.file_openable then h.file ++ [history_line time cwd cmd] else h.file
      history := h.history ++ [cmd]
      path2cwd := fun k => if k = cmd then some cwd else h.path2cwd k }

/-- Parent-side outcome of `run_external_command` (src/process.rs:274-405):
`commandNotFound` is the path that prints ``command not found`` and returns
`Ok(ExitedWith(1))` before any fork; `forked path` is the path that forks,
returns `Ok(Running(child))` in the parent, and `execv`s `path` in the
child. -/
inductive ExternalOutcome where
  | commandNotFound
  | forked (path : String)
deriving Repr, DecidableEq

/-- The argv0 resolution and fork decision of `run_external_command`
(src/process.rs:310-330): an argv0 starting with `/` or `./` is used as-is;
anything else is looked up in the path table and a miss aborts with
`command not found` / `ExitedWith(1)` without forking. -/
def run_external_command (sh : Shell) (argv0 : String) : ExternalOutcome :=
  if strStartsWith argv0 "/" || strStartsWith argv0 "./" then .forked argv0
  else
    match sh.path_table.lookup argv0 with
    | some path => .forked path
    | none => .commandNotFound

/-- Parent-side file-descriptor bookkeeping of `run_pipeline`
(src/eval.rs:60-155): `next_fd` is the next fd `pipe()` would hand out,
`pipes` the `(pipe_out, pipe_in)` pairs in creation order, `closed` the fds
the parent has closed, in order of the `close` calls. -/
structure PipeState where
  next_fd : Nat
  pipes : List (Nat × Nat)
  closed : List Nat
deriving Repr, DecidableEq

/-- The command loop of `run_pipeline` (src/eval.rs:75-154), non-interactive,
with each command's `run_command` result given by `results`.  When a next
command exists a pipe is created before the command runs; after it runs the
parent closes `pipe_in` (the write end) and the read end becomes the next
command's stdin.  A `Break`/`Continue`/`Return`/`NoExec` result leaves the
loop; nothing else in the parent closes the read ends. -/
def run_pipeline_fds (stdin : Nat) (st : PipeState) : List ExitStatus → PipeState
  | [] => st
  | r :: rest =>
    let pipes? : Option (Nat × Nat) :=
      if rest.isEmpty then none else some (st.next_fd, st.next_fd + 1)
    let st :=
      match pipes? with
      | some po_pi => { st with next_fd := st.next_fd + 2, pipes := st.pipes ++ [po_pi] }
      | none => st
    let stdin' :=
      match pipes? with
      | some po_pi => po_pi.1
      | none => stdin
    let st :=
      match pipes? with
      | some po_pi => { st with closed := st.closed ++ [po_pi.2] }
      | none => st
    match r with
    | .ExitedWith _ => run_pipeline_fds stdin' st rest
    | .Running _ => run_pipeline_fds stdin' st rest
    | _ => st

/-- `run_pipeline`'s pipe bookkeeping started from a fresh parent state
(stdin 0; fds 3 and up are free). -/
def run_pipeline_pipes (results : List ExitStatus) : PipeState :=
  run_pipeline_fds 0 { next_fd := 3, pipes := [], closed := [] } results

/-- Is the status an `ExitedWith`? -/
def ExitStatus.isExited : ExitStatus → Bool
  | .ExitedWith _ => true
  | _ => false

/-- The `(pipe_out, pipe_in)` pairs `pipe()` hands out starting at fd
`base`: `(base, base+1), (base+2, base+3), ...`. -/
def freshPipes (base : Nat) : Nat → List (Nat × Nat)
  | 0 => []
  | n + 1 => (base, base + 1) :: freshPipes (base + 2) n

/-- `ParseError` (src/parser.rs:21-25). -/
inductive ParseError where
  | Fatal (msg : String)
  | Empty
deriving Repr, DecidableEq

/-- `parse` (src/parser.rs:137-150).  Modelled from the spec in one respect:
the pest grammar `shell.pest` that `parse` feeds the script through is not in
this tree, so the grammar outcome is a parameter — `.ok terms` when the
grammar matches and the visitor yields `terms` (whitespace/comment-only input
yields none), `.error msg` on a grammar error.  `parse` then maps an empty
term list to `ParseError::Empty` and a grammar error to
`ParseError::Fatal`. -/
def parse (pest_result : Except String (List Term)) : Except ParseError Ast :=
  match pest_result with
  | .ok terms => if terms.isEmpty then .error .Empty else .ok ⟨terms⟩
  | .error err => .error (.Fatal err)

/-- `Shell::run_script_with_stdio` (src/shell.rs:92-110).  `evalFn` stands
for `eval::eval` on a successful parse; the third component of a result is
the list of lines the call writes to the shell's stderr.  On `Empty` the
script is silently `ExitedWith(0)`; on `Fatal` the error goes to the
`debug!` trace log only — the shell state (including `last_status`) is
untouched, nothing is written to stderr, and the result is
`ExitedWith(-1)`. -/
def run_script_with_stdio
    (evalFn : Shell → Ast → Shell × ExitStatus × List String) (sh : Shell)
    (pest_result : Except String (List Term)) : Shell × ExitStatus × List String :=
  match parse pest_result with
  | .ok ast => evalFn sh ast
  | .error .Empty => (sh, .ExitedWith 0, [])
  | .error (.Fatal _) => (sh, .ExitedWith (-1), [])

/-- `Shell::pushd` (src/shell.rs:192-194): `Vec::push`. -/
def Shell.pushd (sh : Shell) (path : String) : Shell :=
  { sh with cd_stack := sh.cd_stack ++ [path] }

/-- `Shell::popd` (src/shell.rs:196-198): `Vec::pop` returns the last
element, if any, and the shrunken stack. -/
def Shell.popd (sh : Shell) : Option String × Shell :=
  match sh.cd_stack.getLast? with
  | some d => (some d, { sh with cd_stack := sh.cd_stack.dropLast })
  | none => (none, sh)

/-- The pieces of the OS environment `Cd::run` consults: the current working
directory, the home directory, and whether `set_current_dir` on a given path
succeeds. -/
structure CdEnv where
  current_dir : String
  home : Option String
  chdir_ok : String → Bool

/-- The final `std::env::set_current_dir` step of `Cd::run`
(src/builtins/cd.rs:49-55): on success status 0 with the new working
directory, on failure a diagnostic and status 1 with the working directory
unchanged. -/
def cd_chdir (env : CdEnv) (sh : Shell) (dir : String) : ExitStatus × Shell × String :=
  if env.chdir_ok dir then (.ExitedWith 0, sh, dir)
  else (.ExitedWith 1, sh, env.current_dir)

/-- `Cd::run` (src/builtins/cd.rs:10-56), returning the exit status, the
shell (whose directory stack may have changed), and the resulting working
directory.  `-` pops the stack (status 1 when it is empty); any other
argument resolves to an absolute path and pushes the current directory
*before* attempting the change; no argument targets home (or `/`). -/
def cd_run (env : CdEnv) (sh : Shell) (argv : List String) : ExitStatus × Shell × String :=
  match argv.get? 1 with
  | some arg =>
    if arg = "-" then
      match sh.popd with
      | (some d, sh2) => cd_chdir env sh2 d
      | (none, sh2) => (.ExitedWith 1, sh2, env.current_dir)
    else
      let dir := if strStartsWith arg "/" then arg else env.current_dir ++ "/" ++ arg
      cd_chdir env (sh.pushd env.current_dir) dir
  | none =>
    let dir :=
      match env.home with
      | some home_dir => home_dir
      | none => "/"
    cd_chdir env (sh.pushd env.current_dir) dir

/-- Does readable directory `d` contain an entry with basename `cmd`?
(Unreadable directories contain nothing: `rehash` skips them.) -/
def dirHasEntry (fs : DirFs) (cmd d : String) : Bool :=
  match fs d with
  | some files => files.contains cmd
  | none => false

/-- Fixture: a file system with `/bin` holding `ls` and `cat` and `/usr/bin`
holding `ls`; everything else is unreadable. -/
def fsW : DirFs := fun d =>
  if d = "/bin" then some ["ls", "cat"]
  else if d = "/usr/bin" then some ["ls"]
  else none

/-- Fixture: a shell whose only variable is the global `x = "a b"`. -/
def shellWithX : Shell :=
  { emptyShell with global := fun k => if k = "x" then some ⟨some (.String "a b")⟩ else none }

/-- Fixture: a cd environment in which every directory change fails. -/
def envW : CdEnv := ⟨"/home", some "/home", fun _ => false⟩

/-- Fixture: an evaluator that does nothing, for exercising the parse-error
paths of `run_script_with_stdio` (which never reach it). -/
def evalConst : Shell → Ast → Shell × ExitStatus × List String :=
  fun sh _ => (sh, .ExitedWith 0, [])

/-! ### Helper lemmas -/

/-- Joining a singleton list of strings is the string itself. -/
theorem join_singleton (s : String) : String.join [s] = s := by
  cases s
  rfl

/-- Pointwise view of the entry-insertion loop: the table maps `cmd` to the
entry's absolute path exactly when `cmd` is among the directory's entries,
and is otherwise untouched. -/
theorem insertEntries_apply (dir : String) (files : List String)
    (table : String → Option String) (cmd : String) :
    insertEntries dir table files cmd
      = if files.contains cmd then some (joinPath dir cmd) else table cmd := by
  induction files generalizing table with
  | nil => simp [insertEntries]
  | cons e es ih =>
    simp only [insertEntries, ih]
    by_cases he : cmd = e
    · by_cases hm : cmd ∈ es <;> simp [he, hm]
    · by_cases hm : cmd ∈ es <;> simp [he, hm]

/-- Pointwise view of the per-directory step of the loop. -/
theorem processDir_apply (fs : DirFs) (d : String) (table : String → Option String)
    (cmd : String) :
    processDir fs d table cmd
      = if dirHasEntry fs cmd d then some (joinPath d cmd) else table cmd := by
  unfold processDir dirHasEntry
  cases hfs : fs d with
  | none => simp
  | some files =>
    dsimp only
    rw [insertEntries_apply]

/-- Pointwise view of the directory loop: the table maps `cmd` to the path
from the *last* processed directory that is readable and contains `cmd`
(later inserts overwrite), i.e. the first such directory of the reversed
processing order. -/
theorem scanDirs_apply (fs : DirFs) (ds : List String)
    (table : String → Option String) (cmd : String) :
    scanDirs fs table ds cmd
      = match ds.reverse.find? (dirHasEntry fs cmd) with
        | some d => some (joinPath d cmd)
        | none => table cmd := by
  induction ds generalizing table with
  | nil => simp [scanDirs]
  | cons d ds ih =>
    rw [List.reverse_cons, List.find?_append]
    have hstep : scanDirs fs table (d :: ds) = scanDirs fs (processDir fs d table) ds := rfl
    rw [hstep, ih]
    cases hf : ds.reverse.find? (dirHasEntry fs cmd) with
    | some d2 => simp [Option.or]
    | none =>
      rw [processDir_apply]
      cases hd : dirHasEntry fs cmd d with
      | true => simp [List.find?, hd, Option.or]
      | false => simp [List.find?, hd, Option.or]

/-- `freshPipes` produces `n` pairs. -/
theorem freshPipes_length (n base : Nat) : (freshPipes base n).length = n := by
  induction n generalizing base with
  | zero => rfl
  | succ n ih => simp [freshPipes, ih]

/-- Membership in `freshPipes`: the pairs are `(base+2i, base+2i+1)`. -/
theorem mem_freshPipes (n base : Nat) (pr : Nat × Nat) :
    pr ∈ freshPipes base n ↔ ∃ i, i < n ∧ pr.1 = base + 2 * i ∧ pr.2 = base + 2 * i + 1 := by
  induction n generalizing base with
  | zero => simp [freshPipes]
  | succ n ih =>
    simp only [freshPipes, List.mem_cons, ih]
    constructor
    · rintro (rfl | ⟨i, hi, h1, h2⟩)
      · exact ⟨0, by omega, by simp, by simp⟩
      · exact ⟨i + 1, by omega, by omega, by omega⟩
    · rintro ⟨i, hi, h1, h2⟩
      cases i with
      | zero =>
        left
        obtain ⟨a, b⟩ := pr
        simp only [Prod.mk.injEq]
        omega
      | succ j =>
        right
        exact ⟨j, by omega, by omega, by omega⟩

/-- A read end (first component) of a fresh pipe never equals a write end
(second component): their offsets from `base` have different parities. -/
theorem freshPipes_read_not_write (n base : Nat) (pr : Nat × Nat)
    (hpr : pr ∈ freshPipes base n) :
    pr.1 ∉ (freshPipes base n).map Prod.snd := by
  intro hmem
  rw [List.mem_map] at hmem
  obtain ⟨qr, hq, hqe⟩ := hmem
  rw [mem_freshPipes] at hpr hq
  obtain ⟨i, _, hi1, _⟩ := hpr
  obtain ⟨j, _, _, hj2⟩ := hq
  omega

/-- Closed form of `run_pipeline`'s fd bookkeeping when every command result
is `ExitedWith` (so the loop never breaks early): `N-1` pipes are allocated
and exactly their write ends are closed, in order. -/
theorem run_pipeline_fds_spec (results : List ExitStatus)
    (h : ∀ r ∈ results, r.isExited = true) (stdin : Nat) (st : PipeState) :
    run_pipeline_fds stdin st results
      = { next_fd := st.next_fd + 2 * (results.length - 1)
          pipes := st.pipes ++ freshPipes st.next_fd (results.length - 1)
          closed := st.closed ++ (freshPipes st.next_fd (results.length - 1)).map Prod.snd } := by
  induction results generalizing stdin st with
  | nil => simp [run_pipeline_fds, freshPipes]
  | cons r rest ih =>
    have hr : r.isExited = true := h r (by simp)
    have hrest : ∀ x ∈ rest, x.isExited = true := fun x hx => h x (by simp [hx])
    cases r with
    | ExitedWith code =>
      cases rest with
      | nil => simp [run_pipeline_fds, freshPipes]
      | cons r2 rest2 =>
        have hstep : run_pipeline_fds stdin st (ExitStatus.ExitedWith code :: r2 :: rest2)
            = run_pipeline_fds st.next_fd
                { next_fd := st.next_fd + 2
                  pipes := st.pipes ++ [(st.next_fd, st.next_fd + 1)]
                  closed := st.closed ++ [st.next_fd + 1] } (r2 :: rest2) := by
          simp [run_pipeline_fds]
        rw [hstep, ih hrest]
        simp only [List.length_cons, Nat.add_sub_cancel, PipeState.mk.injEq]
        refine ⟨by omega, ?_, ?_⟩
        · simp [freshPipes, List.append_assoc]
        · simp [freshPipes, List.append_assoc]
    | Running pid => simp [ExitStatus.isExited] at hr
    | Break => simp [ExitStatus.isExited] at hr
    | Continue => simp [ExitStatus.isExited] at hr
    | Return => simp [ExitStatus.isExited] at hr
    | NoExec => simp [ExitStatus.isExited] at hr

/-! ### Claim theorems -/

/-- Claim C1: the guard in `run_terms` executes a `RunIf::Failure` pipeline
after *any* `ExitedWith` status, including 0, because the arm
`(ExitedWith(_), Failure)` matches before the status is inspected.  At the
input modelling `true || echo x ; echo y` every pipeline is executed — the
`||` pipeline is *not* skipped after status 0, contradicting the claim (and
the `RunIf::Failure` doc comment in src/parser.rs). -/
theorem run_terms_failure_runs_after_zero :
    pipelineGate (.ExitedWith 0) .Failure = .run
      ∧ run_terms [[⟨.Always, .ExitedWith 0⟩, ⟨.Failure, .ExitedWith 0⟩],
          [⟨.Always, .ExitedWith 0⟩]]
          = ([true, true, true], .ExitedWith 0) :=
  ⟨rfl, rfl⟩

/-- Claim C2 (counterexample): expanding the undefined variable `FOO` does
not abort just the current command — `expand_param` reaches
`std::process::exit(1)` (the `shellExit` outcome), terminating the whole
shell process. -/
theorem expand_param_undefined_counterexample :
    expand_param emptyShell "FOO" .GetOrEmpty = .error (.shellExit 1) := rfl

/-- Claim C2 (amended): for every name other than `?` that is bound neither
in the current frame nor in the global frame, `expand_param` emits the
`undefined variable` diagnostic and terminates the whole shell process with
exit status 1 (it does not silently expand to empty — and it does not keep
the shell running either). -/
theorem expand_param_undefined_exits (sh : Shell) (name : String) (op : ExpansionOp)
    (hq : name ≠ "?") (hget : sh.get name = none) :
    expand_param sh name op = .error (.shellExit 1) := by
  unfold expand_param
  rw [if_neg hq, hget]

/-- Witness for C2 at the concrete undefined name `BAR`. -/
theorem expand_param_undefined_exits_witness :
    expand_param emptyShell "BAR" .Length = .error (.shellExit 1) :=
  expand_param_undefined_exits emptyShell "BAR" .Length (by decide) rfl

/-- Claim C3: after a (non-local, string-valued) assignment of `p` to
`PATH`, `lookup cmd` returns `some q` iff the leftmost directory `d` of the
colon-separated `p` that is readable and contains an entry named `cmd`
resolves that entry to `q = d/cmd`; unreadable directories are skipped, and
the reverse iteration makes leftmost directories win. -/
theorem path_scan_lookup (fs : DirFs) (sh : Shell) (p cmd q : String) :
    (Shell.set fs sh "PATH" (.String p) false).path_table.lookup cmd = some q
      ↔ ∃ d, (strSplit p (fun c => c == ':')).find? (dirHasEntry fs cmd) = some d
          ∧ q = joinPath d cmd := by
  have hset : (Shell.set fs sh "PATH" (.String p) false).path_table
      = PathTable.scan fs sh.path_table p := by
    simp [Shell.set]
  rw [hset]
  show scanDirs fs (fun _ => none) (strSplit p (fun c => c == ':')).reverse cmd = some q ↔ _
  rw [scanDirs_apply, List.reverse_reverse]
  cases hf : (strSplit p (fun c => c == ':')).find? (dirHasEntry fs cmd) with
  | none => simp
  | some d => simp [eq_comm]

/-- Witness for C3: with `/bin` and `/usr/bin` both holding `ls`, the
leftmost (`/bin`) wins. -/
theorem path_scan_lookup_witness :
    (Shell.set fsW emptyShell "PATH" (.String "/bin:/usr/bin") false).path_table.lookup "ls"
      = some "/bin/ls" :=
  (path_scan_lookup fsW emptyShell "/bin:/usr/bin" "ls" "/bin/ls").mpr ⟨"/bin", rfl, rfl⟩

/-- Claim C4 (counterexample): `bin/ls` contains a `/`, yet it is not
executed as-is — the path table is consulted (only `/`- and `./`-prefixed
argv0s bypass it) and, the table being empty, the result is the
`command not found` path. -/
theorem run_external_command_counterexample :
    strContainsChar "bin/ls" '/' = true
      ∧ run_external_command emptyShell "bin/ls" = .commandNotFound :=
  ⟨rfl, rfl⟩

/-- Claim C4 (amended): an argv0 that starts with `/` or `./` is executed
as-is without consulting the path table; any other argv0 (even one containing
a `/` elsewhere) is looked up in the path table, and on a miss the shell
prints `command not found` and returns `ExitedWith(1)` without forking. -/
theorem run_external_command_resolution (sh : Shell) (argv0 : String) :
    ((strStartsWith argv0 "/" = true ∨ strStartsWith argv0 "./" = true) →
        run_external_command sh argv0 = .forked argv0)
      ∧ (strStartsWith argv0 "/" = false → strStartsWith argv0 "./" = false →
          (sh.path_table.lookup argv0 = none →
              run_external_command sh argv0 = .commandNotFound)
            ∧ ∀ p, sh.path_table.lookup argv0 = some p →
                run_external_command sh argv0 = .forked p) := by
  constructor
  · intro h
    unfold run_external_command
    rcases h with h | h <;> simp [h]
  · intro h1 h2
    unfold run_external_command
    simp only [h1, h2, Bool.or_false, Bool.false_or, if_neg]
    constructor
    · intro h3
      simp [h3]
    · intro p h3
      simp [h3]

/-- Witness for C4 at the absolute path `/bin/ls`. -/
theorem run_external_command_resolution_witness :
    run_external_command emptyShell "/bin/ls" = .forked "/bin/ls" :=
  (run_external_command_resolution emptyShell "/bin/ls").1 (Or.inl rfl)

/-- Claim C5 (counterexample): for the two-command pipeline (both commands
resolving in-process, e.g. builtins) one pipe is created but only *one* fd
end — the write end — is closed in the parent, not `2·(N−1) = 2`. -/
theorem run_pipeline_fds_counterexample :
    (run_pipeline_pipes [.ExitedWith 0, .ExitedWith 0]).pipes.length = 1
      ∧ (run_pipeline_pipes [.ExitedWith 0, .ExitedWith 0]).closed.length ≠ 2 * 1 :=
  ⟨rfl, by decide⟩

/-- Claim C5 (amended): for every pipeline of `N ≥ 1` commands whose results
are all `ExitedWith` (so the loop never breaks early), exactly `N−1` pipes
are created, the parent closes exactly the `N−1` write ends (each once, in
order), and no read end is ever closed in the parent. -/
theorem run_pipeline_pipe_discipline (results : List ExitStatus)
    (h0 : results ≠ []) (h : ∀ r ∈ results, r.isExited = true) :
    (run_pipeline_pipes results).pipes.length = results.length - 1
      ∧ (run_pipeline_pipes results).closed
          = (run_pipeline_pipes results).pipes.map Prod.snd
      ∧ ∀ pr ∈ (run_pipeline_pipes results).pipes,
          pr.1 ∉ (run_pipeline_pipes results).closed := by
  unfold run_pipeline_pipes
  rw [run_pipeline_fds_spec results h 0 ⟨3, [], []⟩]
  refine ⟨by simp [freshPipes_length], by simp, ?_⟩
  intro pr hpr
  simp only [List.nil_append] at hpr ⊢
  exact freshPipes_read_not_write (results.length - 1) 3 pr hpr

/-- Witness for C5 on a three-command pipeline. -/
theorem run_pipeline_pipe_discipline_witness :
    (run_pipeline_pipes [.ExitedWith 0, .ExitedWith 1, .ExitedWith 0]).pipes.length = 2
      ∧ (run_pipeline_pipes [.ExitedWith 0, .ExitedWith 1, .ExitedWith 0]).closed
          = (run_pipeline_pipes [.ExitedWith 0, .ExitedWith 1, .ExitedWith 0]).pipes.map
              Prod.snd :=
  ⟨(run_pipeline_pipe_discipline [.ExitedWith 0, .ExitedWith 1, .ExitedWith 0]
      (by decide) (by decide)).1,
   (run_pipeline_pipe_discipline [.ExitedWith 0, .ExitedWith 1, .ExitedWith 0]
      (by decide) (by decide)).2.1⟩

/-- Claim C6 (counterexample): the command `ls` is shorter than 8
characters, non-empty and not a duplicate, and `History::append` *does*
append it — there is no minimum-length filter in this tree. -/
theorem history_append_counterexample :
    "ls".length < 8
      ∧ (History.append ⟨[], [], true, fun _ => none⟩ "ls" 0 "/tmp").history = ["ls"] :=
  ⟨by decide, rfl⟩

/-- Claim C6 (amended): `History::append` is a no-op iff the command is empty
or equals the last entry of the in-memory list; otherwise the in-memory list
grows by exactly that entry and, when the history file can be opened for
append, the file gains exactly one `time\tcwd\tcmd` line (no length filter
exists). -/
theorem history_append_spec (h : History) (cmd : String) (time : Nat) (cwd : String) :
    ((cmd = "" ∨ h.history.getLast? = some cmd) → History.append h cmd time cwd = h)
      ∧ (cmd ≠ "" → h.history.getLast? ≠ some cmd →
          (History.append h cmd time cwd).history = h.history ++ [cmd]
            ∧ (h.file_openable = true →
                (History.append h cmd time cwd).file
                  = h.file ++ [history_line time cwd cmd])
            ∧ (h.file_openable = false → (History.append h cmd time cwd).file = h.file))
      ∧ ((History.append h cmd time cwd).history = h.history
          ↔ (cmd = "" ∨ h.history.getLast? = some cmd)) := by
  refine ⟨?_, ?_, ?_⟩
  · intro hc
    unfold History.append
    rcases hc with hc | hc
    · rw [if_pos hc]
    · by_cases h0 : cmd = ""
      · rw [if_pos h0]
      · rw [if_neg h0, if_pos hc]
  · intro h1 h2
    unfold History.append
    rw [if_neg h1, if_neg h2]
    refine ⟨rfl, ?_, ?_⟩
    · intro h3
      simp [h3]
    · intro h3
      simp [h3]
  · constructor
    · intro heq
      by_contra hnc
      push_neg at hnc
      obtain ⟨h1, h2⟩ := hnc
      unfold History.append at heq
      rw [if_neg h1, if_neg h2] at heq
      simp only at heq
      have := congrArg List.length heq
      simp at this
    · intro hc
      rcases hc with hc | hc
      · unfold History.append
        rw [if_pos hc]
      · unfold History.append
        by_cases h0 : cmd = ""
        · rw [if_pos h0]
        · rw [if_neg h0, if_pos hc]

/-- Witness for C6: a fresh 11-character command is appended to the list. -/
theorem history_append_spec_witness :
    (History.append ⟨["echo hello"], [], true, fun _ => none⟩ "cargo build" 7 "/src").history
      = ["echo hello", "cargo build"] :=
  ((history_append_spec ⟨["echo hello"], [], true, fun _ => none⟩ "cargo build" 7 "/src").2.1
      (by decide) (by decide)).1

/-- Claim C7 (counterexample): on a fatal parse error the caller neither
writes a diagnostic to the shell's stderr (the stderr line list stays empty;
the error only goes to the `debug!` trace) nor sets `last_status` to a
non-zero value (the shell state, whose `last_status` is 0, is returned
untouched); it returns `ExitedWith(-1)`. -/
theorem parse_fatal_counterexample :
    run_script_with_stdio evalConst emptyShell (.error "syntax error")
        = (emptyShell, .ExitedWith (-1), [])
      ∧ emptyShell.last_status = 0 :=
  ⟨rfl, rfl⟩

/-- Claim C7 (amended): `parse` returns `Empty` exactly when the grammar
yields no terms, and the caller then silently returns `ExitedWith(0)`; on a
grammar error `parse` returns `Fatal` and the caller evaluates no tree and
returns `ExitedWith(-1)` with the shell state (including `last_status`)
unchanged and nothing written to the shell's stderr. -/
theorem parse_error_contract
    (evalFn : Shell → Ast → Shell × ExitStatus × List String) (sh : Shell)
    (terms : List Term) (msg : String) :
    (parse (.ok terms) = .error .Empty ↔ terms = [])
      ∧ run_script_with_stdio evalFn sh (.ok []) = (sh, .ExitedWith 0, [])
      ∧ run_script_with_stdio evalFn sh (.error msg) = (sh, .ExitedWith (-1), [])
      ∧ parse (.error msg) = .error (.Fatal msg) := by
  refine ⟨?_, rfl, rfl, rfl⟩
  cases terms <;> simp [parse]

/-- Witness for C7: the empty term list parses to `Empty` and runs to a
silent `ExitedWith(0)`. -/
theorem parse_error_contract_witness :
    run_script_with_stdio evalConst emptyShell (.ok []) = (emptyShell, .ExitedWith 0, []) :=
  (parse_error_contract evalConst emptyShell [] "x").2.1

/-- Claim C8: `expand_word_into_vec` never returns an empty argument vector —
an expansion with no output yields exactly `[""]`. -/
theorem expand_word_into_vec_never_empty (sh : Shell) (word : Word) (ifs : String)
    (res : List String) (h : expand_word_into_vec sh word ifs = .ok res) :
    res ≠ [] := by
  unfold expand_word_into_vec at h
  cases hl : expandSpansLoop sh ifs word ([], []) with
  | error e =>
    rw [hl] at h
    simp at h
  | ok st =>
    obtain ⟨words, current_word⟩ := st
    rw [hl] at h
    dsimp only at h
    by_cases he :
        (if current_word.isEmpty then words
         else words ++ [String.join current_word]).isEmpty = true
    · rw [if_pos he] at h
      injection h with h2
      subst h2
      simp
    · rw [if_neg he] at h
      injection h with h2
      subst h2
      intro hc
      rw [hc] at he
      simp at he

/-- Witness for C8: the expansion of a word holding one empty literal is
`[""]`, which is non-empty. -/
theorem expand_word_into_vec_never_empty_witness : ([""] : List String) ≠ [] :=
  expand_word_into_vec_never_empty emptyShell [Span.Literal ""] " \t\n" [""] rfl

/-- Claim C9: expanding a word that is exactly the quoted parameter span
`"$x"` of a defined variable `x` (any ordinary name, i.e. not the special
parameter `?`, which never resolves to a frame variable) yields exactly one
argument equal to `x.as_str()`, whatever `IFS` is — quoted parameter
fragments are never field-split. -/
theorem quoted_param_single_argument (sh : Shell) (name : String) (op : ExpansionOp)
    (ifs : String) (var : Variable) (hq : name ≠ "?") (hget : sh.get name = some var) :
    expand_word_into_vec sh [Span.Parameter name op true] ifs = .ok [var.as_str] := by
  have hp : expand_param sh name op = .ok [some var.as_str] := by
    unfold expand_param
    rw [if_neg hq, hget]
  have hf : expandSpanFrags sh (Span.Parameter name op true) = .ok ([var.as_str], false) := by
    unfold expandSpanFrags
    dsimp only
    rw [hp]
    rfl
  have hl : expandSpansLoop sh ifs [Span.Parameter name op true] ([], [])
      = .ok ([], [var.as_str]) := by
    unfold expandSpansLoop
    rw [hf]
    rfl
  unfold expand_word_into_vec
  rw [hl]
  simp [join_singleton]

/-- Witness for C9: `x = "a b"` with `IFS = " "` still expands `"$x"` to the
single argument `a b`. -/
theorem quoted_param_single_argument_witness :
    expand_word_into_vec shellWithX [Span.Parameter "x" .GetOrEmpty true] " "
      = .ok ["a b"] :=
  quoted_param_single_argument shellWithX "x" .GetOrEmpty " "
    ⟨some (.String "a b")⟩ (by decide) rfl

/-- Claim C10: when `cd` is invoked with a directory argument other than `-`
and the directory change fails, it returns `ExitedWith(1)` but the previous
working directory has already been pushed onto the directory stack and is
not rolled back — a later `cd -` pops exactly the directory the failed `cd`
was run from. -/
theorem cd_failed_keeps_push (env : CdEnv) (sh : Shell) (argv : List String)
    (arg : String) (h1 : argv.get? 1 = some arg) (h2 : arg ≠ "-")
    (h3 : env.chdir_ok
        (if strStartsWith arg "/" then arg else env.current_dir ++ "/" ++ arg) = false) :
    cd_run env sh argv
        = (.ExitedWith 1, { sh with cd_stack := sh.cd_stack ++ [env.current_dir] },
            env.current_dir)
      ∧ (Shell.popd { sh with cd_stack := sh.cd_stack ++ [env.current_dir] }).1
          = some env.current_dir := by
  constructor
  · unfold cd_run
    rw [h1]
    simp only [if_neg h2]
    unfold cd_chdir Shell.pushd
    simp [h3]
  · simp [Shell.popd, List.getLast?_concat]

/-- Witness for C10: `cd nope` fails (every chdir fails in `envW`) yet
`/home` has been pushed. -/
theorem cd_failed_keeps_push_witness :
    cd_run envW emptyShell ["cd", "nope"]
      = (.ExitedWith 1, { emptyShell with cd_stack := ["/home"] }, "/home") :=
  (cd_failed_keeps_push envW emptyShell ["cd", "nope"] "nope" rfl (by decide) rfl).1

end ToyShell
